import Mathlib

/-!
Verification of the QCBot video-audit application (src/app.py) against its
natural-language specification.  The Python source is shallowly embedded:
Python strings become `List Char`, pure helpers become Lean functions, the
Streamlit run handler becomes an explicit state-passing function, and the
interactions with the remote Gemini service (upload, status polling, inference,
deletion) are parameters of the embedding: the environment records what the
remote side answers, and the embedded code computes what the application does
with those answers.
-/

/- ## String utilities modelling Python `str` operations on `List Char` -/

/-- Boolean prefix test on character lists (used to model Python substring search). -/
def isPrefixL : List Char → List Char → Bool
  | [], _ => true
  | _ :: _, [] => false
  | p :: ps, h :: hs => if p = h then isPrefixL ps hs else false

/-- Python's `pat in hay` substring test: some suffix of `hay` starts with `pat`. -/
def occursIn : List Char → List Char → Bool
  | [], pat => isPrefixL pat []
  | h :: t, pat => isPrefixL pat (h :: t) || occursIn t pat

/-- Python `str.strip()`: drop whitespace from both ends. -/
def pyStrip (s : List Char) : List Char :=
  ((s.dropWhile Char.isWhitespace).reverse.dropWhile Char.isWhitespace).reverse

/-- Python `str.lower()` (ASCII case folding, which covers every string the app compares). -/
def pyLower (s : List Char) : List Char :=
  s.map Char.toLower

/- ## Prompt construction (src/app.py, `run_audit`, lines 89-148) -/

/-- The text of the audit prompt f-string before the script interpolation point (src/app.py lines 105-112). -/
def promptBefore : List Char :=
("\n    Role: You are a Senior Video Quality Assurance (QA) Auditor for a premium broadcast production house. Your auditing style is forensic, strict, and detail-oriented. You do not skim; you analyze every frame, audio cue, and data point against the provided \"Ground Truth\" (Script & Fact Sheet).\n    \n    Objective: Conduct a minute-by-minute audit of the uploaded video file. Your goal is to catch every error—visual, audio, factual, or compliance-related—before the video goes to final export.\n    \n    Input Data Required:\n    - The Video File: (Uploaded)\n    - The Approved Script: ").toList

/-- The text of the audit prompt f-string after the script interpolation point (src/app.py lines 112-144). -/
def promptAfter : List Char :=
("\n    - Key Facts/Data: General Indian Context (Use real-world Indian GST Laws, Tax Slabs, and ICMR Guidelines).\n    \n    The \"Forensic\" Checklist (Audit Parameters):\n    \n    1. STRICT SCRIPT FIDELITY & DEVIATIONS\n    - Verbatim Check: Compare spoken dialogue against the script. Flag any skipped lines, ad-libs, or missing segments (e.g., skipped scenes).\n    - Placeholder Detection: Flag if the script contains placeholder text (e.g., \"lorem ipsum\" or gibberish) but the video has actual dialogue.\n    - Ending/Structure: Ensure the video ends exactly as scripted. If the script calls for a \"Call to Action\" (CTA) and the video ends with a skit/blooper instead, flag it as a Major Deviation.\n    \n    2. FACTUAL INTEGRITY & REAL-WORLD LOGIC\n    - Data Validation (CRITICAL): Verify all numbers, percentages, and financial claims (e.g., GST rates, Tax slabs) against Real-World Laws (specifically Indian context).\n    - Example: If the video says \"4% GST\" but the real tax slab is 5% or 18%, flag this as CRITICAL MISINFORMATION, even if the script is vague.\n    - Grammage & Science: Check if visual data (e.g., \"50g protein\") aligns with the spoken narration or cited sources (e.g., ICMR guidelines).\n    \n    3. VISUAL FORENSICS & BRANDING\n    - Text Legibility: strict check on all on-screen text. Is there sufficient contrast? (e.g., White text on a light background). Note: Be precise. Do not flag if the text is on a dark colored pill/shape.\n    - Prop Logic & Continuity: Watch for objects appearing out of nowhere (e.g., an egg appearing in hand without an establishing \"taking out of pocket\" shot).\n    - Branding & Parody: If the video uses parody brands (e.g., \"Bomato\" instead of \"Zomato\"), ensure the Trade Dress (colors, UI layout) isn't identical to the real brand to avoid legal risk.\n    \n    4. COMPLIANCE & PRIVACY (PII)\n    - Screen Inspections (CRITICAL): Pause and zoom in on every shot featuring a phone or computer screen.\n    - Check for visible PII (Personally Identifiable Information): Real names, phone numbers, email addresses, or delivery locations.\n    - Action: If found, strict instruction to BLUR.\n    \n    5. AUDIO & PACING\n    - Mix Levels: Ensure background music does not drown out the Voiceover (VO), especially during \"reveal\" or \"cheering\" moments.\n    - Lip Sync: Verify audio matches speaker mouth movement.\n    \n    Output Format:\n    Please present your findings in a structured JSON list format using these keys: \n    timestamp, severity (Critical/Major/Minor), category, issue_description, suggested_fix.\n    ").toList

/-- The fallback injected when no usable script is supplied (src/app.py line 93). -/
def blindAuditMarker : List Char :=
  ("NOT PROVIDED (Perform Blind Audit based on visual/audio logic)").toList

/-- src/app.py line 93: `script_content if script_content and len(script_content.strip()) > 10 else ...`. -/
def scriptTextToInject (script : List Char) : List Char :=
  if script ≠ [] ∧ 10 < (pyStrip script).length then script else blindAuditMarker

/-- The full rendered prompt of `run_audit` (src/app.py lines 105-144). -/
def auditPrompt (script : List Char) : List Char :=
  promptBefore ++ scriptTextToInject script ++ promptAfter

/- ## Severity styling (src/app.py, `color_severity`, lines 250-259) -/

/-- CSS returned for a severity value containing "critical". -/
def cssCritical : List Char :=
  ("background-color: #ffb3b3; color: black; font-weight: bold;").toList

/-- CSS returned for a severity value containing "major". -/
def cssMajor : List Char :=
  ("background-color: #fff4cc; color: black;").toList

/-- CSS returned for a severity value containing "minor". -/
def cssMinor : List Char :=
  ("color: gray;").toList

/-- src/app.py lines 250-259: lowercase the cell value and test substrings in order. -/
def color_severity (val : List Char) : List Char :=
  let v := pyLower val
  if occursIn v ("critical").toList then cssCritical
  else if occursIn v ("major").toList then cssMajor
  else if occursIn v ("minor").toList then cssMinor
  else []

/-- Applying the style to a cell: the styler computes CSS but leaves the cell value intact. -/
def styleCell (val : List Char) : List Char × List Char :=
  (val, color_severity val)

/- ## Media upload and polling (src/app.py, `upload_to_gemini`, lines 55-87) -/

/-- Processing states of a remote media handle. -/
inductive FileState
  | PROCESSING
  | ACTIVE
  | FAILED
deriving DecidableEq

/-- What the remote service answers during one run of `upload_to_gemini`:
whether `genai.upload_file` raises, the state of the handle it returns, and the
successive results of `genai.get_file` (`none` models a raised exception). -/
structure UploadEnv where
  uploadRaises : Bool
  initialState : FileState
  fetches : List (Option FileState)
deriving DecidableEq

/-- Observable outcome of the polling loop: durations slept, number of re-fetches,
and the final state (`none` when a fetch raised). -/
structure PollOut where
  sleeps : List Nat
  fetchCalls : Nat
  result : Option FileState
deriving DecidableEq

/-- src/app.py lines 69-72: `while state == "PROCESSING": time.sleep(2); gemini_file = genai.get_file(...)`.
Returns `none` when the loop is still running after the modelled fetch trace is exhausted. -/
def pollLoop (s : FileState) (fs : List (Option FileState)) : Option PollOut :=
  if s = FileState.PROCESSING then
    match fs with
    | [] => none
    | none :: _ => some ⟨[2], 1, none⟩
    | some s2 :: rest =>
      (pollLoop s2 rest).map (fun o => ⟨2 :: o.sleeps, o.fetchCalls + 1, o.result⟩)
  else some ⟨[], 0, some s⟩

/-- Value returned by `upload_to_gemini`: the handle (with its final state) or `None`. -/
inductive UploadReturn
  | handle (s : FileState)
  | failure
deriving DecidableEq

/-- Full observable outcome of one call to `upload_to_gemini`. -/
structure UploadOut where
  ret : UploadReturn
  sleeps : List Nat
  fetchCalls : Nat
  tempFileRemains : Bool
  errorShown : Bool
deriving DecidableEq

/-- The body of the `try`/`except` in `upload_to_gemini` (src/app.py lines 63-84):
upload, poll, branch on FAILED; any exception is caught and turned into `None`
with an error message.  The fourth component records whether an error was shown. -/
def uploadBody (env : UploadEnv) : Option (UploadReturn × List Nat × Nat × Bool) :=
  if env.uploadRaises then some (UploadReturn.failure, [], 0, true)
  else
    match pollLoop env.initialState env.fetches with
    | none => none
    | some p =>
      match p.result with
      | none => some (UploadReturn.failure, p.sleeps, p.fetchCalls, true)
      | some final =>
        if final = FileState.FAILED then some (UploadReturn.failure, p.sleeps, p.fetchCalls, true)
        else some (UploadReturn.handle final, p.sleeps, p.fetchCalls, false)

/-- src/app.py lines 55-87: the temp file exists when the `try` is entered, the body
never touches it, and the `finally` clause unlinks it when it exists. -/
def upload_to_gemini (env : UploadEnv) : Option UploadOut :=
  let tempExists := true
  (uploadBody env).map (fun r =>
    { ret := r.1, sleeps := r.2.1, fetchCalls := r.2.2.1,
      tempFileRemains := if tempExists then false else tempExists,
      errorShown := r.2.2.2 })

/-- A status trace in which the handle reports PROCESSING exactly `k` times and then `t`:
the first component is the state on the uploaded handle, the rest are `get_file` results. -/
def pollTrace (k : Nat) (t : FileState) : FileState × List (Option FileState) :=
  match k with
  | 0 => (t, [])
  | Nat.succ k2 => (FileState.PROCESSING, (List.replicate k2 FileState.PROCESSING ++ [t]).map some)

/- ## Parsed JSON data and the DataFrame model (src/app.py lines 229-276) -/

/-- A parsed JSON object: ordered key/value pairs with string values
(Python dicts preserve insertion order; `json.loads` keys are unique). -/
abbrev JsonObj := List (List Char × List Char)

/-- Ordered association-list lookup (Python `dict` access during DataFrame construction). -/
def alookup (o : JsonObj) (key : List Char) : Option (List Char) :=
  match o with
  | [] => none
  | (k, v) :: rest => if k = key then some v else alookup rest key

/-- Append to `acc` the keys of one object that are not yet known, in order. -/
def addNewKeys (acc : List (List Char)) : List (List Char) → List (List Char)
  | [] => acc
  | k :: ks => if k ∈ acc then addNewKeys acc ks else addNewKeys (acc ++ [k]) ks

/-- `pd.DataFrame(data)` column order: keys in first-appearance order across the records. -/
def frameColumns (data : List JsonObj) : List (List Char) :=
  data.foldl (fun acc o => addNewKeys acc (o.map Prod.fst)) []

/-- The DataFrame held in `st.session_state.audit_df`: column labels plus one
cell row per record (`none` models NaN for a key absent from that record). -/
structure Frame where
  columns : List (List Char)
  rows : List (List (Option (List Char)))
deriving DecidableEq

/-- `pd.DataFrame(data)` for a list of parsed JSON records. -/
def mkFrame (data : List JsonObj) : Frame :=
  { columns := frameColumns data,
    rows := data.map (fun o => (frameColumns data).map (alookup o)) }

/-- `df.empty`: true when the frame has no rows or no columns. -/
def isEmptyFrame (f : Frame) : Bool :=
  f.rows.isEmpty || f.columns.isEmpty

/-- Outcomes of the display block (src/app.py lines 246-281): the styled table,
the clean-audit success note, the waiting note, or the uncaught KeyError raised
by the severity styling when the frame has no severity column (nothing rendered). -/
inductive DisplayKind
  | table
  | cleanAudit
  | waiting
  | styleError
deriving DecidableEq

/-- src/app.py lines 246-281: for a non-empty frame the table branch evaluates
`df.style.map(color_severity, subset=['severity'])` inside `st.dataframe`; the
subset lookup raises KeyError when the frame has no severity column, so the
table renders only when that column exists.  An empty frame shows the
clean-audit success note, an unset slot the waiting note. -/
def displayBlock (slot : Option Frame) : DisplayKind :=
  match slot with
  | some f =>
    if isEmptyFrame f then DisplayKind.cleanAudit
    else if ("severity").toList ∈ f.columns then DisplayKind.table
    else DisplayKind.styleError
  | none => DisplayKind.waiting

/-- The five AuditIssue field names in schema order (src/app.py lines 34-39). -/
def auditKeys : List (List Char) :=
  [("timestamp").toList, ("severity").toList, ("category").toList,
   ("issue_description").toList, ("suggested_fix").toList]

/- ## The start_audit run handler (src/app.py lines 217-243) -/

/-- Hint shown when the exception text contains "429" (src/app.py line 241). -/
def rateLimitHint : List Char :=
  ("⚠️ Rate Limit Exceeded: The selected model is busy. Please switch to 'gemini-2.5-flash' in the sidebar for higher quota.").toList

/-- Hint shown when the exception text contains "404" (src/app.py line 243). -/
def modelNotFoundHint : List Char :=
  ("⚠️ Model Not Found: Your API Key might not have access to this specific experimental model. Try 'gemini-1.5-flash'.").toList

/-- Messages emitted by the `except` branch (src/app.py lines 236-243). -/
def analysisErrorMsgs (emsg : List Char) : List (List Char) :=
  [("Analysis Error: ").toList ++ emsg] ++
    (if occursIn emsg ("429").toList then [rateLimitHint]
     else if occursIn emsg ("404").toList then [modelNotFoundHint]
     else [])

/-- Observable outcome of the audit run handler: the new value of the
session slot, the error messages shown, and whether the success note was shown. -/
structure HandlerOut where
  slot : Option Frame
  errorMsgs : List (List Char)
  successShown : Bool
deriving DecidableEq

/-- src/app.py lines 226-243: the `try` body parses the response and assigns the
session slot, then deletes the remote file and shows success; any exception
(from the request, `json.loads`, `pd.DataFrame`, or the deletion) falls into the
`except` branch.  `response` is the combined outcome of request+parse+DataFrame
(`Except.error e` carries the exception text); `deleteErr` is the exception text
of `genai.delete_file` when that call raises after the slot was already assigned. -/
def startAuditHandler (prev : Option Frame)
    (response : Except (List Char) (List JsonObj))
    (deleteErr : Option (List Char)) : HandlerOut :=
  match response with
  | Except.ok data =>
    match deleteErr with
    | none => { slot := some (mkFrame data), errorMsgs := [], successShown := true }
    | some m => { slot := some (mkFrame data), errorMsgs := analysisErrorMsgs m, successShown := false }
  | Except.error emsg => { slot := prev, errorMsgs := analysisErrorMsgs emsg, successShown := false }

/-- The text of the exception raised by CPython's `json.loads` on the document
"not json": `str` of the `JSONDecodeError` is its position message and does not
include the document itself. -/
def decodeErrMsgNotJson : List Char :=
  ("Expecting value: line 1 column 1 (char 0)").toList

/- ## Script source selection (src/app.py lines 195-206) -/

/-- src/app.py lines 197-206: `script_text = ""`, then the decoded uploaded file
when one is present, else the pasted text when it is non-empty. -/
def selectScript (scriptFile : Option (List Char)) (pasteText : List Char) : List Char :=
  match scriptFile with
  | some content => content
  | none => if pasteText ≠ [] then pasteText else []

/- ## CSV serialization (src/app.py line 275, `df.to_csv(index=False)`) -/

/-- QUOTE_MINIMAL: a field is quoted when it contains the delimiter, the quote
character, or a line-break character. -/
def needsQuoting (f : List Char) : Bool :=
  f.any (fun c => c == ',' || c == '"' || c == '\n' || c == '\r')

/-- Double every quote character inside a quoted field. -/
def escapeField (f : List Char) : List Char :=
  f.foldr (fun c r => if c = '"' then '"' :: '"' :: r else c :: r) []

/-- Serialize one field, quoting it exactly when QUOTE_MINIMAL requires it. -/
def encodeField (f : List Char) : List Char :=
  if needsQuoting f then '"' :: (escapeField f ++ ['"']) else f

/-- Join with a separator character. -/
def joinSep (sep : Char) : List (List Char) → List Char
  | [] => []
  | [f] => f
  | f :: g :: rest => f ++ sep :: joinSep sep (g :: rest)

/-- Serialize one CSV record, terminated by a newline. -/
def encodeRow (r : List (List Char)) : List Char :=
  joinSep ',' (r.map encodeField) ++ ['\n']

/-- `df.to_csv(index=False)` on a table of string cells: header row then data rows,
comma-delimited, minimally quoted, no index column. -/
def writeCsv (t : List (List (List Char))) : List Char :=
  (t.map encodeRow).flatten

/-- How `to_csv` renders one cell: the string itself, the empty string for NaN. -/
def cellStr (c : Option (List Char)) : List Char :=
  c.getD []

/-- The CSV text offered by the download button: columns as header, then the rows. -/
def csvOfFrame (fr : Frame) : List Char :=
  writeCsv (fr.columns :: fr.rows.map (fun r => r.map cellStr))

/-- States of the CSV reading automaton: at a field boundary, inside an unquoted
field, inside a quoted field, or just after a closing quote. -/
inductive CsvMode
  | start
  | bare
  | quoted
  | closed
deriving DecidableEq

/-- One-pass CSV reader: `cur` is the field being read, `row` the fields of the
current record, `acc` the finished records.  Returns `none` on malformed input. -/
def csvScan : List Char → CsvMode → List Char → List (List Char) → List (List (List Char)) → Option (List (List (List Char)))
  | [], CsvMode.start, _, row, acc => some (if row = [] then acc else acc ++ [row ++ [[]]])
  | [], CsvMode.bare, cur, row, acc => some (acc ++ [row ++ [cur]])
  | [], CsvMode.quoted, _, _, _ => none
  | [], CsvMode.closed, cur, row, acc => some (acc ++ [row ++ [cur]])
  | c :: t, CsvMode.start, _, row, acc =>
    if c = '"' then csvScan t CsvMode.quoted [] row acc
    else if c = ',' then csvScan t CsvMode.start [] (row ++ [[]]) acc
    else if c = '\n' then csvScan t CsvMode.start [] [] (acc ++ [row ++ [[]]])
    else csvScan t CsvMode.bare [c] row acc
  | c :: t, CsvMode.bare, cur, row, acc =>
    if c = ',' then csvScan t CsvMode.start [] (row ++ [cur]) acc
    else if c = '\n' then csvScan t CsvMode.start [] [] (acc ++ [row ++ [cur]])
    else csvScan t CsvMode.bare (cur ++ [c]) row acc
  | c :: t, CsvMode.quoted, cur, row, acc =>
    if c = '"' then csvScan t CsvMode.closed cur row acc
    else csvScan t CsvMode.quoted (cur ++ [c]) row acc
  | c :: t, CsvMode.closed, cur, row, acc =>
    if c = '"' then csvScan t CsvMode.quoted (cur ++ ['"']) row acc
    else if c = ',' then csvScan t CsvMode.start [] (row ++ [cur]) acc
    else if c = '\n' then csvScan t CsvMode.start [] [] (acc ++ [row ++ [cur]])
    else none

/-- Parse a CSV document into its records. -/
def parseCsv (s : List Char) : Option (List (List (List Char))) :=
  csvScan s CsvMode.start [] [] []

/- ## Lemmas about the substring test -/

theorem isPrefixL_self_append (p t : List Char) : isPrefixL p (p ++ t) = true := by
  induction p with
  | nil => rfl
  | cons c ps ih => simp [isPrefixL, ih]

theorem isPrefixL_extend (p : List Char) : ∀ t x : List Char,
    isPrefixL p t = true → isPrefixL p (t ++ x) = true := by
  induction p with
  | nil => intro t x _; rfl
  | cons c ps ih =>
    intro t x h
    cases t with
    | nil => simp [isPrefixL] at h
    | cons h2 t2 =>
      by_cases hc : c = h2
      · simp [isPrefixL, hc] at h ⊢
        exact ih t2 x h
      · simp [isPrefixL, hc] at h

theorem occursIn_nil (hay : List Char) : occursIn hay [] = true := by
  cases hay <;> simp [occursIn, isPrefixL]

theorem occursIn_extend_left (a : List Char) : ∀ x p : List Char,
    occursIn x p = true → occursIn (a ++ x) p = true := by
  induction a with
  | nil => intro x p h; exact h
  | cons c t ih =>
    intro x p h
    simp only [List.cons_append, occursIn, Bool.or_eq_true]
    exact Or.inr (ih x p h)

theorem occursIn_extend_right (x : List Char) : ∀ a p : List Char,
    occursIn a p = true → occursIn (a ++ x) p = true := by
  intro a
  induction a with
  | nil =>
    intro p h
    cases p with
    | nil => exact occursIn_nil x
    | cons c q => simp [occursIn, isPrefixL] at h
  | cons c t ih =>
    intro p h
    simp only [occursIn, Bool.or_eq_true] at h
    simp only [List.cons_append, occursIn, Bool.or_eq_true]
    cases h with
    | inl h => exact Or.inl (isPrefixL_extend p (c :: t) x h)
    | inr h => exact Or.inr (ih p h)

theorem occursIn_middle (a p x : List Char) : occursIn (a ++ (p ++ x)) p = true := by
  apply occursIn_extend_left
  cases p with
  | nil => exact occursIn_nil x
  | cons c q =>
    simp only [occursIn, Bool.or_eq_true]
    exact Or.inl (isPrefixL_self_append (c :: q) x)

theorem length_dropWhile_le (p : Char → Bool) (l : List Char) :
    (l.dropWhile p).length ≤ l.length := by
  induction l with
  | nil => simp
  | cons c t ih =>
    by_cases h : p c
    · simp only [List.dropWhile_cons, h, if_true]
      exact Nat.le_trans ih (Nat.le_succ _)
    · simp [List.dropWhile_cons, h]

theorem pyStrip_length_le (s : List Char) : (pyStrip s).length ≤ s.length := by
  unfold pyStrip
  rw [List.length_reverse]
  calc ((s.dropWhile Char.isWhitespace).reverse.dropWhile Char.isWhitespace).length
      ≤ (s.dropWhile Char.isWhitespace).reverse.length := length_dropWhile_le _ _
    _ = (s.dropWhile Char.isWhitespace).length := List.length_reverse _
    _ ≤ s.length := length_dropWhile_le _ _

/- ## C2: script injection into the prompt -/

/-- C2 (counterexample): the claim's non-containment halves fail.  The script
"Role" has trimmed length 4 ≤ 10, yet the rendered prompt does contain the
literal text "Role" (the fixed prompt text itself contains it); and a script
equal to the blind-audit marker has trimmed length 62 > 10 and is injected
verbatim, so the rendered prompt then does contain the blind-audit marker. -/
theorem c2_counterexample :
    ((pyStrip (("Role").toList)).length ≤ 10 ∧
      occursIn (auditPrompt (("Role").toList)) (("Role").toList) = true) ∧
    (10 < (pyStrip blindAuditMarker).length ∧
      occursIn (auditPrompt blindAuditMarker) blindAuditMarker = true) := by
  refine ⟨⟨by decide, ?_⟩, ⟨by decide, ?_⟩⟩
  · have h1 : auditPrompt (("Role").toList)
        = promptBefore ++ (blindAuditMarker ++ promptAfter) := by
      unfold auditPrompt scriptTextToInject
      rw [if_neg (by decide), List.append_assoc]
    rw [h1]
    apply occursIn_extend_right
    decide
  · have h2 : auditPrompt blindAuditMarker
        = promptBefore ++ (blindAuditMarker ++ promptAfter) := by
      unfold auditPrompt scriptTextToInject
      rw [if_pos ⟨by decide, by decide⟩, List.append_assoc]
    rw [h2]
    exact occursIn_middle promptBefore blindAuditMarker promptAfter

/-- C2 (amended): for every script whose trimmed length exceeds 10 characters the
rendered prompt contains the script verbatim, and for every script whose trimmed
length is at most 10 (including absent/empty) the rendered prompt is the fixed
blind-audit prompt, which contains the "NOT PROVIDED (Perform Blind Audit ...)"
marker.  The original non-containment halves hold only up to accidental
occurrences inside the fixed prompt text and are dropped. -/
theorem c2_prompt_injection (script : List Char) :
    (10 < (pyStrip script).length →
        auditPrompt script = promptBefore ++ (script ++ promptAfter) ∧
        occursIn (auditPrompt script) script = true) ∧
    ((pyStrip script).length ≤ 10 →
        auditPrompt script = promptBefore ++ (blindAuditMarker ++ promptAfter) ∧
        occursIn (auditPrompt script) blindAuditMarker = true) := by
  constructor
  · intro h
    have hne : script ≠ [] := by
      intro he
      rw [he] at h
      simp [pyStrip] at h
    have heq : auditPrompt script = promptBefore ++ (script ++ promptAfter) := by
      unfold auditPrompt scriptTextToInject
      rw [if_pos ⟨hne, h⟩, List.append_assoc]
    refine ⟨heq, ?_⟩
    rw [heq]
    exact occursIn_middle promptBefore script promptAfter
  · intro h
    have heq : auditPrompt script = promptBefore ++ (blindAuditMarker ++ promptAfter) := by
      unfold auditPrompt scriptTextToInject
      rw [if_neg (by intro hc; exact absurd hc.2 (Nat.not_lt.mpr h)), List.append_assoc]
    refine ⟨heq, ?_⟩
    rw [heq]
    exact occursIn_middle promptBefore blindAuditMarker promptAfter

/-- C2 (witness): a concrete 33-character script is injected verbatim into the prompt. -/
theorem c2_prompt_injection_witness :
    10 < (pyStrip (("This is the approved script text.").toList)).length ∧
    occursIn (auditPrompt (("This is the approved script text.").toList))
      (("This is the approved script text.").toList) = true :=
  ⟨by decide, ((c2_prompt_injection (("This is the approved script text.").toList)).1 (by decide)).2⟩

/- ## C8: severity classification -/

/-- C8: the per-row severity classification is case-insensitive (values with equal
lowercasings classify identically), maps values containing "critical" to the
strongest highlight, "major" to the medium highlight, "minor" to the
de-emphasis style, anything else (including "Pass") to no style, and never
alters the cell content, so re-classifying a classified cell changes nothing. -/
theorem c8_severity_classification (v w : List Char) :
    (pyLower v = pyLower w → color_severity v = color_severity w) ∧
    color_severity (("Critical").toList) = cssCritical ∧
    color_severity (("MAJOR").toList) = cssMajor ∧
    color_severity (("minor").toList) = cssMinor ∧
    color_severity (("Pass").toList) = [] ∧
    (styleCell v).1 = v ∧
    styleCell (styleCell v).1 = styleCell v := by
  refine ⟨?_, by decide, by decide, by decide, by decide, rfl, rfl⟩
  intro h
  simp only [color_severity]
  rw [h]

/-- C8 (witness): "CRITICAL" and "critical" have the same lowercasing and classify identically. -/
theorem c8_severity_classification_witness :
    pyLower (("CRITICAL").toList) = pyLower (("critical").toList) ∧
    color_severity (("CRITICAL").toList) = color_severity (("critical").toList) :=
  ⟨by decide, (c8_severity_classification (("CRITICAL").toList) (("critical").toList)).1 (by decide)⟩

/- ## C10: script source precedence -/

/-- C10: when a script file is uploaded its decoded content is used and the pasted
text is ignored; the pasted text is used only when no file is uploaded. -/
theorem c10_script_precedence (fileContent pasteText : List Char) :
    selectScript (some fileContent) pasteText = fileContent ∧
    selectScript none pasteText = pasteText := by
  refine ⟨rfl, ?_⟩
  unfold selectScript
  by_cases h : pasteText = []
  · simp [h]
  · simp [h]

/- ## C1, C4: upload polling and temp-file cleanup -/

theorem pollLoop_processing_trace (k : Nat) (t : FileState) (ht : t ≠ FileState.PROCESSING) :
    pollLoop FileState.PROCESSING ((List.replicate k FileState.PROCESSING ++ [t]).map some)
      = some ⟨List.replicate (k + 1) 2, k + 1, some t⟩ := by
  induction k with
  | zero =>
    simp [pollLoop, ht]
  | succ n ih =>
    have hstep : (List.replicate (n + 1) FileState.PROCESSING ++ [t]).map some
        = some FileState.PROCESSING :: (List.replicate n FileState.PROCESSING ++ [t]).map some := by
      simp [List.replicate_succ]
    rw [hstep]
    rw [show pollLoop FileState.PROCESSING
          (some FileState.PROCESSING :: (List.replicate n FileState.PROCESSING ++ [t]).map some)
        = (pollLoop FileState.PROCESSING ((List.replicate n FileState.PROCESSING ++ [t]).map some)).map
            (fun o => ⟨2 :: o.sleeps, o.fetchCalls + 1, o.result⟩) from by simp [pollLoop]]
    rw [ih]
    simp [List.replicate_succ]

/-- C1: when the handle reports PROCESSING exactly k times before a terminal
state, `upload_to_gemini` sleeps exactly k times, 2 seconds each, with one
status re-fetch after each sleep, then leaves the loop; a terminal ACTIVE state
yields the handle and FAILED yields `None` (with an error note, no retry), in
both cases after finitely many steps. -/
theorem c1_upload_polling (k : Nat) (t : FileState) (ht : t ≠ FileState.PROCESSING) :
    upload_to_gemini ⟨false, (pollTrace k t).1, (pollTrace k t).2⟩
      = some { ret := if t = FileState.FAILED then UploadReturn.failure else UploadReturn.handle t,
               sleeps := List.replicate k 2,
               fetchCalls := k,
               tempFileRemains := false,
               errorShown := if t = FileState.FAILED then true else false } := by
  cases k with
  | zero =>
    by_cases hf : t = FileState.FAILED
    · simp [upload_to_gemini, uploadBody, pollLoop, pollTrace, ht, hf]
    · simp [upload_to_gemini, uploadBody, pollLoop, pollTrace, ht, hf]
  | succ n =>
    have hp := pollLoop_processing_trace n t ht
    simp only [List.map_append, List.map_replicate, List.map_cons, List.map_nil] at hp
    by_cases hf : t = FileState.FAILED
    · rw [hf] at hp
      simp [upload_to_gemini, uploadBody, pollTrace, hp, hf]
    · simp [upload_to_gemini, uploadBody, pollTrace, hp, hf]

/-- C1 (witness): a trace with two PROCESSING reports then ACTIVE gives two
2-second sleeps, two re-fetches, and returns the handle. -/
theorem c1_upload_polling_witness :
    FileState.ACTIVE ≠ FileState.PROCESSING ∧
    upload_to_gemini ⟨false, (pollTrace 2 FileState.ACTIVE).1, (pollTrace 2 FileState.ACTIVE).2⟩
      = some { ret := if FileState.ACTIVE = FileState.FAILED then UploadReturn.failure
                      else UploadReturn.handle FileState.ACTIVE,
               sleeps := List.replicate 2 2,
               fetchCalls := 2,
               tempFileRemains := false,
               errorShown := if FileState.ACTIVE = FileState.FAILED then true else false } :=
  ⟨by decide, c1_upload_polling 2 FileState.ACTIVE (by decide)⟩

/-- C4: on every exit path of `upload_to_gemini` — ACTIVE handle returned,
FAILED state, or an exception raised during upload or polling — the local
temporary file is gone when the function returns: the `finally` clause deletes
it whenever it still exists. -/
theorem c4_temp_file_cleanup (env : UploadEnv) (out : UploadOut)
    (h : upload_to_gemini env = some out) : out.tempFileRemains = false := by
  unfold upload_to_gemini at h
  cases hb : uploadBody env with
  | none =>
    rw [hb] at h
    simp at h
  | some r =>
    rw [hb] at h
    simp only [Option.map_some'] at h
    injection h with h2
    rw [← h2]
    simp

/-- C4 (witness): an immediately-ACTIVE upload returns the handle with the temp file deleted. -/
theorem c4_temp_file_cleanup_witness :
    upload_to_gemini ⟨false, FileState.ACTIVE, []⟩
      = some { ret := UploadReturn.handle FileState.ACTIVE, sleeps := [], fetchCalls := 0,
               tempFileRemains := false, errorShown := false } ∧
    ({ ret := UploadReturn.handle FileState.ACTIVE, sleeps := [], fetchCalls := 0,
       tempFileRemains := false, errorShown := false } : UploadOut).tempFileRemains = false :=
  ⟨by decide, c4_temp_file_cleanup ⟨false, FileState.ACTIVE, []⟩
    { ret := UploadReturn.handle FileState.ACTIVE, sleeps := [], fetchCalls := 0,
      tempFileRemains := false, errorShown := false } (by decide)⟩

/- ## C3: parse-failure reporting -/

/-- C3 (counterexample): for the non-JSON response "not json" the handler shows
only "Analysis Error: " followed by the JSON decoder's position message; the raw
response text does not occur in any displayed message, contradicting the claim
that the raw text is reported to the user.  The slot stays unset and the run
does not crash. -/
theorem c3_counterexample :
    (startAuditHandler none (Except.error decodeErrMsgNotJson) none).errorMsgs
      = [("Analysis Error: Expecting value: line 1 column 1 (char 0)").toList] ∧
    (∀ m ∈ (startAuditHandler none (Except.error decodeErrMsgNotJson) none).errorMsgs,
      occursIn m (("not json").toList) = false) ∧
    (startAuditHandler none (Except.error decodeErrMsgNotJson) none).slot = none := by
  refine ⟨by decide, by decide, by decide⟩

/-- C3 (amended): for every failed response — including any JSON parse failure —
the run reports "Analysis Error: " followed by the exception's own message (for
a JSON parse failure that is the decoder's position message, not the raw
response text, which is dropped), leaves the result slot unchanged so the
failed run populates no table, and does not crash: the exception is caught and
rendered as messages. -/
theorem c3_parse_failure_report (prev : Option Frame) (emsg : List Char) :
    (startAuditHandler prev (Except.error emsg) none).slot = prev ∧
    (startAuditHandler prev (Except.error emsg) none).errorMsgs.head?
      = some (("Analysis Error: ").toList ++ emsg) ∧
    (startAuditHandler prev (Except.error emsg) none).successShown = false := by
  refine ⟨rfl, ?_, rfl⟩
  simp [startAuditHandler, analysisErrorMsgs]

/- ## C7: the clean-audit state is distinct -/

/-- C7: a run whose response parses to the empty array stores an empty frame in
the session slot and renders the distinct clean-audit success state, different
from the no-run state (slot unset, waiting notice, no messages) and from the
error state (slot left unset in a fresh session, waiting notice plus error
messages, no success notice). -/
theorem c7_clean_audit_distinct (prev : Option Frame) (emsg : List Char) :
    (startAuditHandler prev (Except.ok []) none).slot = some (mkFrame []) ∧
    (startAuditHandler prev (Except.ok []) none).errorMsgs = [] ∧
    (startAuditHandler prev (Except.ok []) none).successShown = true ∧
    displayBlock (some (mkFrame [])) = DisplayKind.cleanAudit ∧
    displayBlock none = DisplayKind.waiting ∧
    DisplayKind.cleanAudit ≠ DisplayKind.waiting ∧
    DisplayKind.cleanAudit ≠ DisplayKind.table ∧
    (startAuditHandler none (Except.error emsg) none).slot = none ∧
    displayBlock (startAuditHandler none (Except.error emsg) none).slot = DisplayKind.waiting ∧
    (startAuditHandler none (Except.error emsg) none).errorMsgs ≠ [] ∧
    (startAuditHandler none (Except.error emsg) none).successShown = false := by
  refine ⟨rfl, rfl, rfl, by decide, rfl, by decide, by decide, rfl, rfl, ?_, rfl⟩
  simp [startAuditHandler, analysisErrorMsgs]

/- ## C9: wholesale slot replacement -/

/-- C9: the session slot is replaced wholesale.  A successful run stores exactly
the frame built from the newly parsed data — for any previous slot value, and
whether or not the post-success remote-file deletion raises — and a failed run
leaves the slot exactly as it was; no partial table is ever stored. -/
theorem c9_slot_replacement (prev : Option Frame) (data : List JsonObj)
    (emsg : List Char) (delErr : Option (List Char)) :
    (startAuditHandler prev (Except.ok data) delErr).slot = some (mkFrame data) ∧
    (startAuditHandler prev (Except.error emsg) delErr).slot = prev := by
  refine ⟨?_, rfl⟩
  cases delErr <;> rfl

/- ## Lemmas on DataFrame column construction -/

theorem mem_addNewKeys (k : List Char) (ks : List (List Char)) : ∀ acc,
    (k ∈ addNewKeys acc ks ↔ k ∈ acc ∨ k ∈ ks) := by
  induction ks with
  | nil => intro acc; simp [addNewKeys]
  | cons k2 ks2 ih =>
    intro acc
    simp only [addNewKeys]
    by_cases h : k2 ∈ acc
    · rw [if_pos h, ih]
      simp only [List.mem_cons]
      constructor
      · rintro (h1 | h1)
        · exact Or.inl h1
        · exact Or.inr (Or.inr h1)
      · rintro (h1 | h1 | h1)
        · exact Or.inl h1
        · rw [h1]; exact Or.inl h
        · exact Or.inr h1
    · rw [if_neg h, ih]
      simp only [List.mem_append, List.mem_cons, List.mem_singleton]
      tauto

theorem mem_frameColumns (k : List Char) (data : List JsonObj) :
    k ∈ frameColumns data ↔ ∃ o ∈ data, k ∈ o.map Prod.fst := by
  suffices h : ∀ acc, k ∈ data.foldl (fun acc o => addNewKeys acc (o.map Prod.fst)) acc ↔
      k ∈ acc ∨ ∃ o ∈ data, k ∈ o.map Prod.fst by
    simpa [frameColumns] using h []
  induction data with
  | nil => intro acc; simp
  | cons o rest ih =>
    intro acc
    simp only [List.foldl_cons]
    rw [ih (addNewKeys acc (o.map Prod.fst)), mem_addNewKeys]
    simp only [List.mem_cons]
    constructor
    · rintro ((h1 | h1) | ⟨o2, h2, h3⟩)
      · exact Or.inl h1
      · exact Or.inr ⟨o, Or.inl rfl, h1⟩
      · exact Or.inr ⟨o2, Or.inr h2, h3⟩
    · rintro (h1 | ⟨o2, (h2 | h2), h3⟩)
      · exact Or.inl (Or.inl h1)
      · exact Or.inl (Or.inr (h2 ▸ h3))
      · exact Or.inr ⟨o2, h2, h3⟩

theorem addNewKeys_of_subset (ks : List (List Char)) : ∀ acc, (∀ k ∈ ks, k ∈ acc) →
    addNewKeys acc ks = acc := by
  induction ks with
  | nil => intro acc _; rfl
  | cons k ks2 ih =>
    intro acc h
    simp only [addNewKeys]
    rw [if_pos (h k (List.mem_cons_self k ks2))]
    exact ih acc (fun x hx => h x (List.mem_cons_of_mem k hx))

theorem frameColumns_canonical (data : List JsonObj) (hne : data ≠ [])
    (hwf : ∀ o ∈ data, o.map Prod.fst = auditKeys) :
    frameColumns data = auditKeys := by
  cases data with
  | nil => exact absurd rfl hne
  | cons o rest =>
    have ho : o.map Prod.fst = auditKeys := hwf o (List.mem_cons_self o rest)
    have h0 : addNewKeys [] (o.map Prod.fst) = auditKeys := by rw [ho]; decide
    unfold frameColumns
    simp only [List.foldl_cons, h0]
    have hkeep : ∀ ds : List JsonObj, (∀ o2 ∈ ds, o2.map Prod.fst = auditKeys) →
        ds.foldl (fun acc o2 => addNewKeys acc (o2.map Prod.fst)) auditKeys = auditKeys := by
      intro ds
      induction ds with
      | nil => intro _; rfl
      | cons o2 ds2 ih2 =>
        intro h2
        simp only [List.foldl_cons]
        rw [h2 o2 (List.mem_cons_self o2 ds2),
          addNewKeys_of_subset auditKeys auditKeys (fun k hk => hk)]
        exact ih2 (fun x hx => h2 x (List.mem_cons_of_mem o2 hx))
    exact hkeep rest (fun x hx => hwf x (List.mem_cons_of_mem o hx))

theorem alookup_of_keys (o : JsonObj) : ∀ ks : List (List Char),
    o.map Prod.fst = ks → ks.Nodup →
    ks.map (alookup o) = o.map (fun kv => some kv.2) := by
  induction o with
  | nil =>
    intro ks h _
    rw [← h]
    simp
  | cons kv o2 ih =>
    intro ks h hnd
    rcases kv with ⟨k, v⟩
    cases ks with
    | nil => simp at h
    | cons k2 ks2 =>
      simp only [List.map_cons, List.cons.injEq] at h
      obtain ⟨hk, hrest⟩ := h
      subst hk
      have hnotin : k ∉ ks2 := (List.nodup_cons.mp hnd).1
      have hnd2 : ks2.Nodup := (List.nodup_cons.mp hnd).2
      simp only [List.map_cons]
      congr 1
      · simp [alookup]
      · have hsame : ks2.map (alookup ((k, v) :: o2)) = ks2.map (alookup o2) := by
          apply List.map_congr_left
          intro x hx
          have hxk : ¬(k = x) := fun he => hnotin (he ▸ hx)
          simp [alookup, hxk]
        rw [hsame, ih ks2 hrest hnd2]

/- ## Lemmas on CSV serialization and re-parsing -/

theorem needsQuoting_eq_false (f : List Char) :
    needsQuoting f = false ↔ ∀ c ∈ f, c ≠ ',' ∧ c ≠ '"' ∧ c ≠ '\n' ∧ c ≠ '\r' := by
  unfold needsQuoting
  rw [List.any_eq_false]
  apply forall_congr'
  intro c
  apply imp_congr_right
  intro _
  simp only [Bool.or_eq_true, beq_iff_eq, not_or, ne_eq, and_assoc]

theorem csvScan_bare_field (f : List Char) :
    needsQuoting f = false →
    ∀ t cur row acc, csvScan (f ++ t) CsvMode.bare cur row acc
      = csvScan t CsvMode.bare (cur ++ f) row acc := by
  induction f with
  | nil => intro _ t cur row acc; simp
  | cons c f2 ih =>
    intro hf t cur row acc
    rw [needsQuoting_eq_false] at hf
    have hc := hf c (List.mem_cons_self c f2)
    have hf2 : needsQuoting f2 = false :=
      (needsQuoting_eq_false f2).mpr (fun x hx => hf x (List.mem_cons_of_mem c hx))
    simp only [List.cons_append, csvScan]
    rw [if_neg hc.1, if_neg hc.2.2.1]
    simp only [List.append_eq]
    rw [ih hf2]
    simp

theorem csvScan_quoted_field (f : List Char) :
    ∀ t cur row acc, csvScan (escapeField f ++ t) CsvMode.quoted cur row acc
      = csvScan t CsvMode.quoted (cur ++ f) row acc := by
  induction f with
  | nil => intro t cur row acc; simp [escapeField]
  | cons c f2 ih =>
    intro t cur row acc
    by_cases hc : c = '"'
    · subst hc
      have he : escapeField ('"' :: f2) = '"' :: '"' :: escapeField f2 := by
        simp [escapeField]
      rw [he]
      simp only [List.cons_append]
      rw [show csvScan ('"' :: ('"' :: (escapeField f2 ++ t))) CsvMode.quoted cur row acc
          = csvScan (escapeField f2 ++ t) CsvMode.quoted (cur ++ ['"']) row acc from by
        simp [csvScan]]
      rw [ih]
      simp
    · have he : escapeField (c :: f2) = c :: escapeField f2 := by
        simp [escapeField, hc]
      rw [he]
      simp only [List.cons_append, csvScan]
      rw [if_neg hc]
      simp only [List.append_eq]
      rw [ih]
      simp

theorem csvScan_field_comma (f : List Char) (t : List Char) (row : List (List Char))
    (acc : List (List (List Char))) :
    csvScan (encodeField f ++ ',' :: t) CsvMode.start [] row acc
      = csvScan t CsvMode.start [] (row ++ [f]) acc := by
  unfold encodeField
  by_cases hq : needsQuoting f
  · rw [if_pos hq]
    rw [show ('"' :: (escapeField f ++ ['"'])) ++ ',' :: t
        = '"' :: (escapeField f ++ ('"' :: ',' :: t)) from by simp]
    rw [show csvScan ('"' :: (escapeField f ++ ('"' :: ',' :: t))) CsvMode.start [] row acc
        = csvScan (escapeField f ++ ('"' :: ',' :: t)) CsvMode.quoted [] row acc from by
      simp [csvScan]]
    rw [csvScan_quoted_field]
    simp [csvScan]
  · rw [if_neg hq]
    rw [Bool.not_eq_true] at hq
    cases f with
    | nil => simp [csvScan]
    | cons c f2 =>
      rw [needsQuoting_eq_false] at hq
      have hc := hq c (List.mem_cons_self c f2)
      have hf2 : needsQuoting f2 = false :=
        (needsQuoting_eq_false f2).mpr (fun x hx => hq x (List.mem_cons_of_mem c hx))
      rw [show csvScan ((c :: f2) ++ ',' :: t) CsvMode.start [] row acc
          = csvScan (f2 ++ ',' :: t) CsvMode.bare [c] row acc from by
        simp only [List.cons_append, csvScan]
        rw [if_neg hc.2.1, if_neg hc.1, if_neg hc.2.2.1]
        rfl]
      rw [csvScan_bare_field f2 hf2]
      simp [csvScan]

theorem csvScan_field_newline (f : List Char) (t : List Char) (row : List (List Char))
    (acc : List (List (List Char))) :
    csvScan (encodeField f ++ '\n' :: t) CsvMode.start [] row acc
      = csvScan t CsvMode.start [] [] (acc ++ [row ++ [f]]) := by
  unfold encodeField
  by_cases hq : needsQuoting f
  · rw [if_pos hq]
    rw [show ('"' :: (escapeField f ++ ['"'])) ++ '\n' :: t
        = '"' :: (escapeField f ++ ('"' :: '\n' :: t)) from by simp]
    rw [show csvScan ('"' :: (escapeField f ++ ('"' :: '\n' :: t))) CsvMode.start [] row acc
        = csvScan (escapeField f ++ ('"' :: '\n' :: t)) CsvMode.quoted [] row acc from by
      simp [csvScan]]
    rw [csvScan_quoted_field]
    simp [csvScan]
  · rw [if_neg hq]
    rw [Bool.not_eq_true] at hq
    cases f with
    | nil => simp [csvScan]
    | cons c f2 =>
      rw [needsQuoting_eq_false] at hq
      have hc := hq c (List.mem_cons_self c f2)
      have hf2 : needsQuoting f2 = false :=
        (needsQuoting_eq_false f2).mpr (fun x hx => hq x (List.mem_cons_of_mem c hx))
      rw [show csvScan ((c :: f2) ++ '\n' :: t) CsvMode.start [] row acc
          = csvScan (f2 ++ '\n' :: t) CsvMode.bare [c] row acc from by
        simp only [List.cons_append, csvScan]
        rw [if_neg hc.2.1, if_neg hc.1, if_neg hc.2.2.1]
        rfl]
      rw [csvScan_bare_field f2 hf2]
      simp [csvScan]

theorem csvScan_record (f : List Char) (r2 : List (List Char)) :
    ∀ t row acc, csvScan (joinSep ',' ((f :: r2).map encodeField) ++ '\n' :: t)
        CsvMode.start [] row acc
      = csvScan t CsvMode.start [] [] (acc ++ [row ++ (f :: r2)]) := by
  induction r2 generalizing f with
  | nil =>
    intro t row acc
    simp only [List.map_cons, List.map_nil, joinSep]
    rw [csvScan_field_newline]
  | cons g r3 ih =>
    intro t row acc
    simp only [List.map_cons, joinSep]
    rw [show (encodeField f ++ ',' :: joinSep ',' (encodeField g :: r3.map encodeField)) ++ '\n' :: t
        = encodeField f ++ ',' :: (joinSep ',' (encodeField g :: r3.map encodeField) ++ '\n' :: t) from by
      simp]
    rw [csvScan_field_comma]
    have := ih g t (row ++ [f]) acc
    simp only [List.map_cons] at this
    rw [this]
    simp

theorem csvScan_table (rows : List (List (List Char))) :
    ∀ acc, (∀ r ∈ rows, r ≠ []) →
    csvScan ((rows.map encodeRow).flatten) CsvMode.start [] [] acc = some (acc ++ rows) := by
  induction rows with
  | nil => intro acc _; simp [csvScan]
  | cons r rows2 ih =>
    intro acc h
    cases r with
    | nil => exact absurd rfl (h [] (List.mem_cons_self [] rows2))
    | cons f r2 =>
      simp only [List.map_cons, List.flatten_cons, encodeRow]
      rw [show (joinSep ',' (encodeField f :: r2.map encodeField) ++ ['\n']) ++ (rows2.map encodeRow).flatten
          = joinSep ',' (encodeField f :: r2.map encodeField) ++ '\n' :: (rows2.map encodeRow).flatten from by
        simp]
      have hrec := csvScan_record f r2 ((rows2.map encodeRow).flatten) [] acc
      simp only [List.map_cons] at hrec
      rw [hrec]
      rw [ih (acc ++ [[] ++ (f :: r2)]) (fun x hx => h x (List.mem_cons_of_mem (f :: r2) hx))]
      simp

theorem parseCsv_writeCsv (t : List (List (List Char))) (h : ∀ r ∈ t, r ≠ []) :
    parseCsv (writeCsv t) = some t := by
  unfold parseCsv writeCsv
  rw [csvScan_table t [] h]
  simp

/- ## Further lemmas on frame construction -/

theorem foldl_addNewKeys_keep (ds : List JsonObj) :
    (∀ o ∈ ds, ∀ k ∈ o.map Prod.fst, k ∈ auditKeys) →
    ds.foldl (fun acc o => addNewKeys acc (o.map Prod.fst)) auditKeys = auditKeys := by
  induction ds with
  | nil => intro _; rfl
  | cons o ds2 ih =>
    intro h
    simp only [List.foldl_cons]
    rw [addNewKeys_of_subset (o.map Prod.fst) auditKeys (h o (List.mem_cons_self o ds2))]
    exact ih (fun x hx => h x (List.mem_cons_of_mem o hx))

theorem frameColumns_head_canonical (o₀ : JsonObj) (rest : List JsonObj)
    (h₀ : o₀.map Prod.fst = auditKeys)
    (hsub : ∀ o ∈ rest, ∀ k ∈ o.map Prod.fst, k ∈ auditKeys) :
    frameColumns (o₀ :: rest) = auditKeys := by
  unfold frameColumns
  simp only [List.foldl_cons]
  rw [h₀, show addNewKeys [] auditKeys = auditKeys from by decide]
  exact foldl_addNewKeys_keep rest hsub

theorem alookup_isSome (o : JsonObj) (k : List Char) :
    (alookup o k).isSome = true ↔ k ∈ o.map Prod.fst := by
  induction o with
  | nil => simp [alookup]
  | cons kv o2 ih =>
    by_cases h : kv.1 = k
    · simp [alookup, h]
    · have h2 : ¬(k = kv.1) := fun he => h he.symm
      simp [alookup, h, List.mem_cons, h2, ih]

/- ## C5: table rendering and CSV export -/

/-- C5 (counterexample): two families refute the claim as stated.  For N = 0 —
the empty well-formed JSON array — no table and no CSV download are rendered at
all: the clean-audit branch runs instead of the table branch and the empty frame
has no columns, so no five-column header exists.  And when the first object
lists its five fields in a different order (here severity first), the columns
follow that first-appearance order, so the header is not
"timestamp,severity,category,issue_description,suggested_fix". -/
theorem c5_counterexample :
    (displayBlock (some (mkFrame [])) = DisplayKind.cleanAudit ∧
     DisplayKind.cleanAudit ≠ DisplayKind.table ∧
     (mkFrame []).columns = []) ∧
    ((mkFrame [[(("severity").toList, ("Minor").toList), (("timestamp").toList, ("t").toList),
        (("category").toList, ("c").toList), (("issue_description").toList, ("i").toList),
        (("suggested_fix").toList, ("f").toList)]]).columns ≠ auditKeys ∧
     joinSep ',' (mkFrame [[(("severity").toList, ("Minor").toList), (("timestamp").toList, ("t").toList),
        (("category").toList, ("c").toList), (("issue_description").toList, ("i").toList),
        (("suggested_fix").toList, ("f").toList)]]).columns
       ≠ ("timestamp,severity,category,issue_description,suggested_fix").toList) := by
  refine ⟨⟨by decide, by decide, by decide⟩, ⟨by decide, by decide⟩⟩

/-- C5 (amended): for every nonempty JSON array of AuditIssue objects in which
every object carries exactly the five expected fields — the first object in the
canonical order, later objects in any order — the displayed frame has exactly
the five expected columns in canonical order and exactly N rows in input order
(duplicates preserved), every cell is present (no NaN), the styled table branch
is rendered, the CSV export is built from exactly the displayed columns and
rows, its header line is
"timestamp,severity,category,issue_description,suggested_fix", and re-parsing
the CSV reproduces the header plus the same N rows in the same order
(round-trip).  The byte encoding of the CSV is declared UTF-8 at the `.encode`
call and is outside this character-level model.  For N = 0 no table or CSV is
rendered, and a first object with permuted fields permutes the columns and the
header. -/
theorem c5_table_csv_roundtrip (o₀ : JsonObj) (rest : List JsonObj)
    (h₀ : o₀.map Prod.fst = auditKeys)
    (hrest : ∀ o ∈ rest, (∀ k ∈ o.map Prod.fst, k ∈ auditKeys) ∧
      (∀ k ∈ auditKeys, k ∈ o.map Prod.fst)) :
    (mkFrame (o₀ :: rest)).columns = auditKeys ∧
    (mkFrame (o₀ :: rest)).rows.length = (o₀ :: rest).length ∧
    (mkFrame (o₀ :: rest)).rows = (o₀ :: rest).map (fun o => auditKeys.map (alookup o)) ∧
    (∀ o ∈ o₀ :: rest, ∀ k ∈ auditKeys, (alookup o k).isSome = true) ∧
    displayBlock (some (mkFrame (o₀ :: rest))) = DisplayKind.table ∧
    csvOfFrame (mkFrame (o₀ :: rest))
      = writeCsv (auditKeys ::
          (o₀ :: rest).map (fun o => auditKeys.map (fun k => cellStr (alookup o k)))) ∧
    joinSep ',' auditKeys = ("timestamp,severity,category,issue_description,suggested_fix").toList ∧
    parseCsv (csvOfFrame (mkFrame (o₀ :: rest)))
      = some (auditKeys ::
          (o₀ :: rest).map (fun o => auditKeys.map (fun k => cellStr (alookup o k)))) := by
  have hsub : ∀ o ∈ rest, ∀ k ∈ o.map Prod.fst, k ∈ auditKeys := fun o ho => (hrest o ho).1
  have hcols : frameColumns (o₀ :: rest) = auditKeys := frameColumns_head_canonical o₀ rest h₀ hsub
  have hcols2 : (mkFrame (o₀ :: rest)).columns = auditKeys := by
    simp [mkFrame, hcols]
  have hrows : (mkFrame (o₀ :: rest)).rows
      = (o₀ :: rest).map (fun o => auditKeys.map (alookup o)) := by
    simp [mkFrame, hcols]
  have hsome : ∀ o ∈ o₀ :: rest, ∀ k ∈ auditKeys, (alookup o k).isSome = true := by
    intro o ho k hk
    rcases List.mem_cons.mp ho with h1 | h1
    · subst h1
      rw [alookup_isSome, h₀]
      exact hk
    · rw [alookup_isSome]
      exact (hrest o h1).2 k hk
  have hlen : (mkFrame (o₀ :: rest)).rows.length = (o₀ :: rest).length := by
    rw [hrows]; simp
  have hcsv : csvOfFrame (mkFrame (o₀ :: rest))
      = writeCsv (auditKeys ::
          (o₀ :: rest).map (fun o => auditKeys.map (fun k => cellStr (alookup o k)))) := by
    unfold csvOfFrame
    rw [hcols2, hrows]
    congr 1
    congr 1
    rw [List.map_map]
    apply List.map_congr_left
    intro o _
    simp only [Function.comp]
    rw [List.map_map]
    rfl
  have hdisp : displayBlock (some (mkFrame (o₀ :: rest))) = DisplayKind.table := by
    have hemp : isEmptyFrame (mkFrame (o₀ :: rest)) = false := by
      unfold isEmptyFrame
      rw [hcols2, hrows]
      simp [auditKeys]
    have hsev : ("severity").toList ∈ (mkFrame (o₀ :: rest)).columns := by
      rw [hcols2]; decide
    simp only [displayBlock]
    rw [if_neg (by simp [hemp]), if_pos hsev]
  have hrowsne : ∀ r ∈ auditKeys ::
      (o₀ :: rest).map (fun o => auditKeys.map (fun k => cellStr (alookup o k))), r ≠ [] := by
    intro r hr
    rcases List.mem_cons.mp hr with h1 | h1
    · rw [h1]; decide
    · obtain ⟨o, _, rfl⟩ := List.mem_map.mp h1
      simp [auditKeys]
  exact ⟨hcols2, hlen, hrows, hsome, hdisp, hcsv, by decide,
    by rw [hcsv]; exact parseCsv_writeCsv _ hrowsne⟩

/-- C5 (witness): a two-row array — first record in canonical field order,
second record with severity listed first — renders the five canonical columns
and round-trips through the CSV export. -/
theorem c5_table_csv_roundtrip_witness :
    (([(("timestamp").toList, ("0:05").toList), (("severity").toList, ("Critical").toList),
       (("category").toList, ("Fact").toList), (("issue_description").toList, ("Wrong GST").toList),
       (("suggested_fix").toList, ("Use 18%").toList)] : JsonObj).map Prod.fst = auditKeys) ∧
    (∀ o ∈ ([[(("severity").toList, ("Major").toList), (("timestamp").toList, ("0:10").toList),
        (("category").toList, ("Audio").toList), (("issue_description").toList, ("Low mix").toList),
        (("suggested_fix").toList, ("Raise VO").toList)]] : List JsonObj),
      (∀ k ∈ o.map Prod.fst, k ∈ auditKeys) ∧ (∀ k ∈ auditKeys, k ∈ o.map Prod.fst)) ∧
    parseCsv (csvOfFrame (mkFrame
        ([(("timestamp").toList, ("0:05").toList), (("severity").toList, ("Critical").toList),
          (("category").toList, ("Fact").toList), (("issue_description").toList, ("Wrong GST").toList),
          (("suggested_fix").toList, ("Use 18%").toList)] ::
         [[(("severity").toList, ("Major").toList), (("timestamp").toList, ("0:10").toList),
           (("category").toList, ("Audio").toList), (("issue_description").toList, ("Low mix").toList),
           (("suggested_fix").toList, ("Raise VO").toList)]])))
      = some (auditKeys ::
          ([(("timestamp").toList, ("0:05").toList), (("severity").toList, ("Critical").toList),
            (("category").toList, ("Fact").toList), (("issue_description").toList, ("Wrong GST").toList),
            (("suggested_fix").toList, ("Use 18%").toList)] ::
           [[(("severity").toList, ("Major").toList), (("timestamp").toList, ("0:10").toList),
             (("category").toList, ("Audio").toList), (("issue_description").toList, ("Low mix").toList),
             (("suggested_fix").toList, ("Raise VO").toList)]]).map
            (fun o => auditKeys.map (fun k => cellStr (alookup o k)))) :=
  ⟨by decide, by decide,
    (c5_table_csv_roundtrip
      [(("timestamp").toList, ("0:05").toList), (("severity").toList, ("Critical").toList),
       (("category").toList, ("Fact").toList), (("issue_description").toList, ("Wrong GST").toList),
       (("suggested_fix").toList, ("Use 18%").toList)]
      [[(("severity").toList, ("Major").toList), (("timestamp").toList, ("0:10").toList),
        (("category").toList, ("Audio").toList), (("issue_description").toList, ("Low mix").toList),
        (("suggested_fix").toList, ("Raise VO").toList)]]
      (by decide) (by decide)).2.2.2.2.2.2.2⟩

/- ## C6: column handling for absent/extra fields -/

/-- C6 (counterexample): both halves of the claim fail.  For a record carrying a
severity field plus the unexpected key "zzz", the table is rendered and "zzz"
appears among its columns even though it is not one of the five expected
columns, so the rendering does not display only the intersection of expected
and present columns.  And for a record with no severity field at all, the
severity styling raises an uncaught KeyError and nothing is rendered, so absent
fields are not tolerated. -/
theorem c6_counterexample :
    (displayBlock (some (mkFrame [[(("timestamp").toList, ("t").toList),
        (("severity").toList, ("Minor").toList), (("zzz").toList, ("x").toList)]]))
      = DisplayKind.table ∧
     ("zzz").toList ∈ (mkFrame [[(("timestamp").toList, ("t").toList),
        (("severity").toList, ("Minor").toList), (("zzz").toList, ("x").toList)]]).columns ∧
     ("zzz").toList ∉ auditKeys) ∧
    (displayBlock (some (mkFrame [[(("timestamp").toList, ("t").toList),
        (("zzz").toList, ("x").toList)]])) = DisplayKind.styleError ∧
     DisplayKind.styleError ≠ DisplayKind.table ∧
     DisplayKind.styleError ≠ DisplayKind.cleanAudit) := by
  refine ⟨⟨by decide, by decide, by decide⟩, ⟨by decide, by decide, by decide⟩⟩

/-- C6 (amended): whenever the table is actually rendered, its displayed columns
are exactly the keys present in the parsed records, in first-appearance order —
extra fields are displayed too and expected fields absent from every record are
simply missing, rather than reducing to the intersection with the expected
five.  A nonempty frame with no severity column is not tolerated: the severity
styling raises and nothing is rendered.  The fixed left-to-right order
timestamp, severity, category, issue_description, suggested_fix is obtained
when every record lists exactly the five schema fields in schema order. -/
theorem c6_columns_characterization (data : List JsonObj) :
    (displayBlock (some (mkFrame data)) = DisplayKind.table →
      ∀ k, k ∈ (mkFrame data).columns ↔ ∃ o ∈ data, k ∈ o.map Prod.fst) ∧
    (isEmptyFrame (mkFrame data) = false →
      ("severity").toList ∉ (mkFrame data).columns →
      displayBlock (some (mkFrame data)) = DisplayKind.styleError) ∧
    DisplayKind.styleError ≠ DisplayKind.table ∧
    (data ≠ [] → (∀ o ∈ data, o.map Prod.fst = auditKeys) →
      (mkFrame data).columns = auditKeys ∧
      displayBlock (some (mkFrame data)) = DisplayKind.table) := by
  refine ⟨?_, ?_, by decide, ?_⟩
  · intro _ k
    show k ∈ frameColumns data ↔ _
    exact mem_frameColumns k data
  · intro hemp hsev
    simp only [displayBlock]
    rw [if_neg (by simp [hemp]), if_neg hsev]
  · intro h1 h2
    have hcols := frameColumns_canonical data h1 h2
    have hcols2 : (mkFrame data).columns = auditKeys := by
      simp [mkFrame, hcols]
    refine ⟨hcols2, ?_⟩
    have hemp : isEmptyFrame (mkFrame data) = false := by
      unfold isEmptyFrame
      rw [hcols2]
      cases data with
      | nil => exact absurd rfl h1
      | cons o rest => simp [mkFrame, auditKeys]
    have hsev : ("severity").toList ∈ (mkFrame data).columns := by
      rw [hcols2]; decide
    simp only [displayBlock]
    rw [if_neg (by simp [hemp]), if_pos hsev]

/-- C6 (witness): for a concrete canonical one-record array the table is rendered
with the five schema fields as columns in schema order. -/
theorem c6_columns_characterization_witness :
    (([[(("timestamp").toList, ("t1").toList), (("severity").toList, ("Minor").toList),
        (("category").toList, ("Audio").toList), (("issue_description").toList, ("Low VO").toList),
        (("suggested_fix").toList, ("Raise VO").toList)]] : List JsonObj) ≠ []) ∧
    ((mkFrame [[(("timestamp").toList, ("t1").toList), (("severity").toList, ("Minor").toList),
        (("category").toList, ("Audio").toList), (("issue_description").toList, ("Low VO").toList),
        (("suggested_fix").toList, ("Raise VO").toList)]]).columns = auditKeys ∧
     displayBlock (some (mkFrame [[(("timestamp").toList, ("t1").toList),
        (("severity").toList, ("Minor").toList), (("category").toList, ("Audio").toList),
        (("issue_description").toList, ("Low VO").toList),
        (("suggested_fix").toList, ("Raise VO").toList)]])) = DisplayKind.table) :=
  ⟨by decide,
    (c6_columns_characterization
      [[(("timestamp").toList, ("t1").toList), (("severity").toList, ("Minor").toList),
        (("category").toList, ("Audio").toList), (("issue_description").toList, ("Low VO").toList),
        (("suggested_fix").toList, ("Raise VO").toList)]]).2.2.2 (by decide) (by decide)⟩
